import Mathlib

/-!
# Verification of the mcp-project-tracker server

A shallow embedding of the `mcp-project-tracker` repository:

* `src/mcp-server.js` — the `MCPServer` class: line-buffered stdin framing
  (`setupMessageHandling`), JSON-RPC routing (`handleMessage`,
  `handleToolCall`), per-tool argument validation, and the eight tool
  handlers;
* `src/database.js` — the `Database` class: SQLite-backed CRUD over the
  `projects` and `tasks` tables, including the schema's CHECK constraints
  and the `ON DELETE CASCADE` foreign key (foreign keys are enabled via
  `PRAGMA foreign_keys = ON`);
* `test/mcp-smoke-test.js` — the `MCPTestClient` class: client-side
  request/response correlation with per-request timeouts.

Modelling conventions:

* JavaScript runtime values are modelled by `JsValue` (`undefined`, `null`,
  booleans, numbers, strings, objects).  JS numbers are modelled as `Int`:
  every number the program stores or compares is an integer id or count,
  and the dispatcher's `validateId` explicitly requires `Number.isInteger`.
  `NaN` and non-integer floats play no role in the verified claims.
* `JSON.parse` is an external collaborator of the framer: it is a parameter
  `parse : String → Except String JsValue` (`.error m` models a throw with
  message `m`).  The framing logic itself (buffer accumulation, newline
  splitting, trimming, the catch-and-send-error policy) is embedded from
  the source.
* SQLite's `CURRENT_TIMESTAMP` is modelled by an explicit time parameter
  `t : Nat` supplied to every operation; real wall-clock time is
  non-decreasing across calls, which theorems assume where relevant.
* A store-level operation that throws does so before mutating the store
  (true of every error path in `database.js`: the guard throws before the
  UPDATE/INSERT, or the failing single statement is atomic), so fallible
  operations are `Except String (α × Store)` and an `.error` leaves the
  caller's store untouched.
* JS float division plus `Math.round` in `getProjectSummary` is modelled by
  exact arithmetic: for nonnegative `x`, `Math.round x = ⌊x + 1/2⌋`.
-/

/-- A JavaScript runtime value, as far as this program manipulates them.
`obj` carries the own enumerable properties in insertion order. -/
inductive JsValue where
  | undefined : JsValue
  | null : JsValue
  | bool : Bool → JsValue
  | num : Int → JsValue
  | str : String → JsValue
  | obj : List (String × JsValue) → JsValue

/-- JS truthiness ( `if (v)` ): `undefined`, `null`, `false`, `0` and `""`
are falsy, everything else this model represents is truthy. -/
def truthy : JsValue → Bool
  | .undefined => false
  | .null => false
  | .bool b => b
  | .num n => n != 0
  | .str s => s != ""
  | .obj _ => true

/-- Property access after destructuring: an object yields the named
property (or `undefined`), non-object primitives yield `undefined`.
(Destructuring `null`/`undefined` throws; callers check that first.) -/
def JsValue.getField : JsValue → String → JsValue
  | .obj fs, k =>
    match fs.find? (fun u => u.1 = k) with
    | some u => u.2
    | none => .undefined
  | _, _ => .undefined

/-- `v === undefined ∨ v === null`: destructuring such a value throws a
`TypeError`. -/
def notDestructurable : JsValue → Bool
  | .undefined => true
  | .null => true
  | _ => false

/-- Rendering of a value inside a JS template literal `${v}` (used only to
build error/success message strings). -/
def jsDisplay : JsValue → String
  | .undefined => "undefined"
  | .null => "null"
  | .bool b => if b then "true" else "false"
  | .num n => toString n
  | .str s => s
  | .obj _ => "[object Object]"

/-- A character removed by JS `String.prototype.trim` (the whitespace and
line-terminator characters that can occur in this protocol's byte
streams). -/
def isJsWhitespace (c : Char) : Bool :=
  c = ' ' || c = '\t' || c = '\n' || c = '\r' || c = '\x0b' || c = '\x0c'

/-- JS `String.prototype.trim`: strip whitespace from both ends
(structural definition, since the library `trim` does not reduce inside
the kernel). -/
def jsTrim (s : String) : String :=
  ⟨((s.toList.dropWhile isJsWhitespace).reverse.dropWhile isJsWhitespace).reverse⟩

/-- SQL `=` between a stored column value and a bound parameter: equality
holds only for same-typed primitive values; `NULL` compares unequal to
everything (three-valued logic collapses to "no match" in a WHERE clause). -/
def sqlEq : JsValue → JsValue → Bool
  | .num a, .num b => a == b
  | .str a, .str b => a == b
  | .bool a, .bool b => a == b
  | _, _ => false

/-- `sqlite3` binds JS `undefined` as SQL `NULL` (as do default parameter
values `= null` in `database.js`). -/
def normNull : JsValue → JsValue
  | .undefined => .null
  | v => v

/-- A row of the `projects` table (`schema.sql`).  `created_at` and
`updated_at` are the logical timestamps of the writes that set them. -/
structure Project where
  id : Int
  name : JsValue
  client : JsValue
  description : JsValue
  created_at : Nat
  updated_at : Nat

/-- A row of the `tasks` table (`schema.sql`).  (Named `TaskRow` because
`Task` is taken by the Lean core library.) -/
structure TaskRow where
  id : Int
  project_id : Int
  description : JsValue
  priority : JsValue
  status : JsValue
  category : JsValue
  assignee : JsValue
  due_date : JsValue
  notes : JsValue
  created_at : Nat
  updated_at : Nat

/-- The SQLite database state: both tables in rowid order plus the
`AUTOINCREMENT` counters (`sqlite_sequence`), which hand out monotonically
increasing, never-reused ids. -/
structure Store where
  projects : List Project
  tasks : List TaskRow
  nextProjectId : Int
  nextTaskId : Int

/-! ## Persistence Store (`src/database.js`) -/

/-- The schema's `CHECK(col IN (...))` constraint: SQL `NULL` vacuously
satisfies a CHECK (the constraint fails only when the expression is
false), a stored string must belong to the enumerated set, and any other
type makes `IN` false. -/
def sqliteEnumOk (v : JsValue) (allowed : List String) : Bool :=
  match v with
  | .null => true
  | .str s => allowed.contains s
  | _ => false

/-- The schema's `NOT NULL` constraint on a bound value. -/
def sqliteNotNull : JsValue → Bool
  | .null => false
  | _ => true

def taskPriorities : List String := ["low", "medium", "high", "critical"]

def taskStatuses : List String :=
  ["pending", "in-progress", "developed", "tested", "deployed", "blocked"]

/-- The row-level constraints of the `tasks` table: `description NOT NULL`,
`CHECK(priority IN ...)`, `CHECK(status IN ...)`. -/
def taskRowOk (task : TaskRow) : Bool :=
  sqliteNotNull task.description &&
  sqliteEnumOk task.priority taskPriorities &&
  sqliteEnumOk task.status taskStatuses

/-- `UPDATE projects SET updated_at = CURRENT_TIMESTAMP WHERE id = ?`
(a no-op when no project has that id). -/
def touchProject (pid : Int) (t : Nat) (s : Store) : Store :=
  { s with
    projects := s.projects.map fun p =>
      if p.id = pid then { p with updated_at := t } else p }

/-- `Database.createProject(name, client = null, description = null)`:
inserts a project (the JS default parameters turn `undefined` into
`null`, as does `sqlite3` parameter binding) with
`updated_at = CURRENT_TIMESTAMP` (and `created_at` by column default),
returning `lastID`. -/
def dbCreateProject (name client description : JsValue) (t : Nat)
    (s : Store) : Except String (Int × Store) :=
  if !sqliteNotNull (normNull name) then
    .error "NOT NULL constraint failed: projects.name"
  else
    let id := s.nextProjectId
    let p : Project :=
      { id := id, name := normNull name, client := normNull client
        description := normNull description, created_at := t, updated_at := t }
    .ok (id, { s with projects := s.projects ++ [p], nextProjectId := id + 1 })

/-- `Database.getProject(id)`: `SELECT * FROM projects WHERE id = ?`
(`get`, i.e. the first matching row or `undefined`). -/
def dbGetProject (id : Int) (s : Store) : Option Project :=
  s.projects.find? (fun p => p.id = id)

/-- The `allowedFields` whitelist of `Database.updateProject`. -/
def allowedProjectFields : List String := ["name", "client", "description"]

/-- The `allowedFields` whitelist of `Database.updateTask`. -/
def allowedTaskFields : List String :=
  ["status", "notes", "priority", "category", "description", "assignee", "due_date"]

/-- Apply one `field = ?` assignment of the generated SET clause to a
project row. -/
def setProjectField (p : Project) : String × JsValue → Project
  | ("name", v) => { p with name := normNull v }
  | ("client", v) => { p with client := normNull v }
  | ("description", v) => { p with description := normNull v }
  | (_, _) => p

/-- Apply one `field = ?` assignment of the generated SET clause to a
task row. -/
def setTaskField (task : TaskRow) : String × JsValue → TaskRow
  | ("status", v) => { task with status := normNull v }
  | ("notes", v) => { task with notes := normNull v }
  | ("priority", v) => { task with priority := normNull v }
  | ("category", v) => { task with category := normNull v }
  | ("description", v) => { task with description := normNull v }
  | ("assignee", v) => { task with assignee := normNull v }
  | ("due_date", v) => { task with due_date := normNull v }
  | (_, _) => task

/-- `Database.updateProject(id, updates)`: keeps only the whitelisted
fields of `updates` (in `Object.entries` order); with none left it throws
`'No valid fields to update'` before touching the store; otherwise runs
one UPDATE that also sets `updated_at = CURRENT_TIMESTAMP`, and reports
`changes > 0`. -/
def dbUpdateProject (id : Int) (updates : List (String × JsValue)) (t : Nat)
    (s : Store) : Except String (Bool × Store) :=
  let setFields := updates.filter (fun u => allowedProjectFields.contains u.1)
  match setFields with
  | [] => .error "No valid fields to update"
  | _ =>
    match s.projects.find? (fun p => p.id = id) with
    | none => .ok (false, s)
    | some p =>
      let p' := { (setFields.foldl setProjectField p) with updated_at := t }
      if !sqliteNotNull p'.name then
        .error "NOT NULL constraint failed: projects.name"
      else
        .ok (true,
          { s with projects := s.projects.map fun q => if q.id = id then p' else q })

/-- `Database.deleteProject(id)`: `DELETE FROM projects WHERE id = ?`.
With `PRAGMA foreign_keys = ON`, the schema's
`FOREIGN KEY (project_id) REFERENCES projects(id) ON DELETE CASCADE`
makes the storage layer delete every task of the project. Reports
`changes > 0`. -/
def dbDeleteProject (id : Int) (s : Store) : Bool × Store :=
  let changes := s.projects.any (fun p => p.id = id)
  (changes,
    { s with
      projects := s.projects.filter (fun p => p.id ≠ id)
      tasks := s.tasks.filter (fun task => task.project_id ≠ id) })

/-- `Database.addTask(projectId, description, priority = 'medium', category
= null, assignee = null, dueDate = null)`: inserts a task (status takes
the column default `'pending'`, `notes` is `NULL`), subject to the FK and
CHECK constraints, then touches the parent project's `updated_at`, and
returns `lastID`. -/
def dbAddTask (projectId : Int) (description priority category assignee dueDate : JsValue)
    (t : Nat) (s : Store) : Except String (Int × Store) :=
  if !s.projects.any (fun p => p.id = projectId) then
    .error "SQLITE_CONSTRAINT: FOREIGN KEY constraint failed"
  else
    let task : TaskRow :=
      { id := s.nextTaskId, project_id := projectId
        description := normNull description, priority := normNull priority
        status := .str "pending", category := normNull category
        assignee := normNull assignee, due_date := normNull dueDate
        notes := .null, created_at := t, updated_at := t }
    if !taskRowOk task then
      .error "SQLITE_CONSTRAINT: CHECK constraint failed"
    else
      let s' := { s with tasks := s.tasks ++ [task], nextTaskId := s.nextTaskId + 1 }
      .ok (task.id, touchProject projectId t s')

/-- `Database.updateTask(id, updates)`: keeps only the whitelisted fields;
with none left it throws `'No valid fields to update'` before touching the
store; otherwise runs one UPDATE (also setting `updated_at`, subject to
the CHECK constraints), then looks up the task's `project_id` and — if the
task exists — touches the parent project's `updated_at`.  Reports
`changes > 0`. -/
def dbUpdateTask (id : Int) (updates : List (String × JsValue)) (t : Nat)
    (s : Store) : Except String (Bool × Store) :=
  let setFields := updates.filter (fun u => allowedTaskFields.contains u.1)
  match setFields with
  | [] => .error "No valid fields to update"
  | _ =>
    match s.tasks.find? (fun task => task.id = id) with
    | none => .ok (false, s)
    | some task =>
      let task' := { (setFields.foldl setTaskField task) with updated_at := t }
      if !taskRowOk task' then
        .error "SQLITE_CONSTRAINT: CHECK constraint failed"
      else
        let s' :=
          { s with tasks := s.tasks.map fun q => if q.id = id then task' else q }
        .ok (true, touchProject task.project_id t s')

/-- `Database.deleteTask(id)`: reads the task's `project_id`, runs
`DELETE FROM tasks WHERE id = ?`, and — if a row was deleted — touches the
parent project's `updated_at`.  Reports `changes > 0`. -/
def dbDeleteTask (id : Int) (t : Nat) (s : Store) : Bool × Store :=
  match s.tasks.find? (fun task => task.id = id) with
  | none => (false, s)
  | some task =>
    let s' := { s with tasks := s.tasks.filter (fun q => q.id ≠ id) }
    (true, touchProject task.project_id t s')

/-- Substring test on character lists (`pat` occurs inside `hay`). -/
def charsContain (pat : List Char) : List Char → Bool
  | [] => pat.isPrefixOf []
  | c :: rest => pat.isPrefixOf (c :: rest) || charsContain pat rest

/-- ASCII lower-casing of one character (structural definition, since the
library `toLower` does not reduce inside the kernel). -/
def asciiLower (c : Char) : Char :=
  if 'A' ≤ c ∧ c ≤ 'Z' then Char.ofNat (c.toNat + 32) else c

/-- SQLite `col LIKE '%term%'` with a non-empty term and no wildcard
characters inside the term: a case-insensitive (ASCII) substring match on
a non-NULL text value; `NULL LIKE ...` is not a match. -/
def sqlLikeContains (field : JsValue) (term : String) : Bool :=
  match field with
  | .str s =>
    charsContain (term.toList.map asciiLower) (s.toList.map asciiLower)
  | _ => false

/-- Stable insertion of `x` after every element with a key ≥ its own
(helper for `ORDER BY key DESC`). -/
def insertByKeyDesc {α : Type} (key : α → Nat) (x : α) : List α → List α
  | [] => [x]
  | y :: ys =>
    if key x ≤ key y then y :: insertByKeyDesc key x ys else x :: y :: ys

/-- `ORDER BY key DESC` as a stable insertion sort (SQLite leaves the
order of equal keys unspecified; this model picks the stable order). -/
def sortByKeyDesc {α : Type} (key : α → Nat) : List α → List α
  | [] => []
  | x :: xs => insertByKeyDesc key x (sortByKeyDesc key xs)

/-- `Database.getTasks(filters)`: starts from `WHERE 1=1` and appends one
`AND` clause per truthy filter (`if (filters.x)` — so falsy values like
`""`, `0`, `null` or a missing property add no clause), ordered by
`created_at DESC`. `filters` is whatever object the caller passed
(`mcp-server.js` passes the raw `args`). -/
def dbGetTasks (filters : JsValue) (s : Store) : List TaskRow :=
  let step (keep : TaskRow → Bool) (v : JsValue) (col : TaskRow → JsValue)
      : TaskRow → Bool :=
    if truthy v then fun task => keep task && sqlEq (col task) v else keep
  let keep : TaskRow → Bool := fun _ => true
  let keep := step keep (filters.getField "project_id") (fun task => .num task.project_id)
  let keep := step keep (filters.getField "status") (fun task => task.status)
  let keep := step keep (filters.getField "priority") (fun task => task.priority)
  let keep := step keep (filters.getField "category") (fun task => task.category)
  let keep := step keep (filters.getField "assignee") (fun task => task.assignee)
  let keep :=
    match filters.getField "search" with
    | .str term =>
      if term ≠ "" then
        fun task => keep task &&
          (sqlLikeContains task.description term || sqlLikeContains task.notes term)
      else keep
    | v =>
      if truthy v then
        fun task => keep task &&
          (sqlLikeContains task.description (jsDisplay v)
            || sqlLikeContains task.notes (jsDisplay v))
      else keep
  sortByKeyDesc (fun task => task.created_at) (s.tasks.filter keep)

/-- One result row of `Database.getProjects`: the project columns joined
with its per-status task counts. -/
structure ProjectListRow where
  project : Project
  total_tasks : Nat
  pending_tasks : Nat
  in_progress_tasks : Nat
  developed_tasks : Nat
  tested_tasks : Nat
  deployed_tasks : Nat
  blocked_tasks : Nat

/-- Count of this project's tasks having a given status. -/
def statusCount (s : Store) (pid : Int) (st : String) : Nat :=
  (s.tasks.filter fun task => task.project_id = pid).countP
    (fun task => sqlEq task.status (.str st))

/-- `Database.getProjects(client = null)`: LEFT JOIN with per-status
counts, optionally filtered by a truthy `client` (`WHERE p.client = ?`),
ordered by `updated_at DESC`. -/
def dbGetProjects (client : JsValue) (s : Store) : List ProjectListRow :=
  let ps :=
    if truthy client then s.projects.filter (fun p => sqlEq p.client client)
    else s.projects
  let rows := ps.map fun p =>
    { project := p
      total_tasks := (s.tasks.filter fun task => task.project_id = p.id).length
      pending_tasks := statusCount s p.id "pending"
      in_progress_tasks := statusCount s p.id "in-progress"
      developed_tasks := statusCount s p.id "developed"
      tested_tasks := statusCount s p.id "tested"
      deployed_tasks := statusCount s p.id "deployed"
      blocked_tasks := statusCount s p.id "blocked" : ProjectListRow }
  sortByKeyDesc (fun row => row.project.updated_at) rows

/-- The result object of `Database.getProjectSummary`. -/
structure Summary where
  total : Nat
  pending : Nat
  in_progress : Nat
  developed : Nat
  tested : Nat
  deployed : Nat
  blocked : Nat
  critical : Nat
  high : Nat
  medium : Nat
  low : Nat
  completion_percentage : Nat
  progress_percentage : Nat

/-- `Math.round((num / total) * 100)` for the summary percentages, under
exact arithmetic: `Math.round x = ⌊x + 1/2⌋` for nonnegative `x`, and
`⌊num/total·100 + 1/2⌋ = (200·num + total) / (2·total)` in `Nat`
division.  (`database.js` guards `total > 0` itself.) -/
def jsRoundPct (num total : Nat) : Nat :=
  (200 * num + total) / (2 * total)

/-- `Database.getProjectSummary(projectId)`: per-status and per-priority
counts over the project's tasks plus the two derived percentages, both
`0` when `total` is `0`. -/
def dbGetProjectSummary (projectId : Int) (s : Store) : Summary :=
  let ts := s.tasks.filter fun task => task.project_id = projectId
  let statusN := fun (st : String) => ts.countP (fun task => sqlEq task.status (.str st))
  let prioN := fun (pr : String) => ts.countP (fun task => sqlEq task.priority (.str pr))
  let total := ts.length
  let developed := statusN "developed"
  let tested := statusN "tested"
  let deployed := statusN "deployed"
  { total := total
    pending := statusN "pending"
    in_progress := statusN "in-progress"
    developed := developed
    tested := tested
    deployed := deployed
    blocked := statusN "blocked"
    critical := prioN "critical"
    high := prioN "high"
    medium := prioN "medium"
    low := prioN "low"
    completion_percentage := if total > 0 then jsRoundPct deployed total else 0
    progress_percentage :=
      if total > 0 then jsRoundPct (developed + tested + deployed) total else 0 }

/-- `SELECT DISTINCT`: keep the first occurrence of each value under the
given equality. -/
def dedupBy {α : Type} (eq : α → α → Bool) : List α → List α
  | [] => []
  | x :: xs => x :: dedupBy eq (xs.filter (fun y => !eq y x))
termination_by l => l.length
decreasing_by
  simp only [List.length_cons]
  exact Nat.lt_succ_of_le (List.length_filter_le _ _)

/-- Stable insertion for an ascending sort under a Bool `≤`. -/
def insertByLe {α : Type} (le : α → α → Bool) (x : α) : List α → List α
  | [] => [x]
  | y :: ys => if le y x then y :: insertByLe le x ys else x :: y :: ys

/-- `ORDER BY ... ASC` as a stable insertion sort. -/
def sortByLe {α : Type} (le : α → α → Bool) : List α → List α
  | [] => []
  | x :: xs => insertByLe le x (sortByLe le xs)

/-- `Database.getAssignees(projectId = null)`: distinct non-NULL,
non-empty assignee values, optionally restricted to one project, ordered
ascending (text ordering modelled on the displayed string). -/
def dbGetAssignees (projectId : JsValue) (s : Store) : List JsValue :=
  let ts :=
    if truthy projectId then
      s.tasks.filter (fun task => sqlEq (.num task.project_id) projectId)
    else s.tasks
  let vals := (ts.map (fun task => task.assignee)).filter
    (fun v => sqliteNotNull v && !sqlEq v (.str ""))
  sortByLe (fun a b => jsDisplay a ≤ jsDisplay b) (dedupBy sqlEq vals)

/-! ## Request Dispatcher (`src/mcp-server.js`) -/

/-- `Array.prototype.includes` with `===` semantics against a list of
string literals: only an equal string matches. -/
def isEnumStr (v : JsValue) (allowed : List String) : Bool :=
  match v with
  | .str s => allowed.contains s
  | _ => false

/-- `MCPServer.validateStatus(status)`: throws when `status` is truthy and
not one of the valid statuses. -/
def validateStatus (status : JsValue) : Except String Unit :=
  if truthy status && !isEnumStr status taskStatuses then
    .error ("Invalid status: " ++ jsDisplay status ++
      ". Must be one of: pending, in-progress, developed, tested, deployed, blocked")
  else .ok ()

/-- `MCPServer.validatePriority(priority)`: throws when `priority` is
truthy and not one of the valid priorities. -/
def validatePriority (priority : JsValue) : Except String Unit :=
  if truthy priority && !isEnumStr priority taskPriorities then
    .error ("Invalid priority: " ++ jsDisplay priority ++
      ". Must be one of: low, medium, high, critical")
  else .ok ()

/-- `MCPServer.validateId(id, fieldName)`: the value must be a number, a
(mathematical) integer, and positive; returns the integer for use by the
handler. -/
def validateId (id : JsValue) (fieldName : String) : Except String Int :=
  match id with
  | .num n =>
    if n > 0 then .ok n
    else .error ("Invalid " ++ fieldName ++ ": must be a positive integer")
  | _ => .error ("Invalid " ++ fieldName ++ ": must be a positive integer")

/-- `MCPServer.validateString(value, fieldName, true)`: required — must be
a string that is non-empty after trimming (`!value` also rejects `""`,
which `trim` covers). -/
def validateStringReq (value : JsValue) (fieldName : String) : Except String Unit :=
  match value with
  | .str s =>
    if jsTrim s = "" then
      .error (fieldName ++ " is required and must be a non-empty string")
    else .ok ()
  | _ => .error (fieldName ++ " is required and must be a non-empty string")

/-- `MCPServer.validateString(value, fieldName, false)`: optional — only a
present (`!== undefined`), non-`null` value of non-string type is
rejected. -/
def validateStringOpt (value : JsValue) (fieldName : String) : Except String Unit :=
  match value with
  | .undefined => .ok ()
  | .null => .ok ()
  | .str _ => .ok ()
  | _ => .error (fieldName ++ " must be a string")

/-- The per-tool result payload a handler returns (`success: true` is
implicit in each constructor; it is serialized into the response text). -/
inductive CallResult where
  | createProject (project_id : Int) (message : String)
  | listProjects (projects : List ProjectListRow)
  | addTask (task_id : Int) (message : String)
  | updateTask (message : String)
  | getTasks (tasks : List TaskRow)
  | projectSummary (project_name : JsValue) (project_id : Int) (summary : Summary)
  | deleteTask (message : String)
  | deleteProject (message : String)

/-- Guard for `const { ... } = args` — throws on `null`/`undefined`. -/
def destructure (args : JsValue) : Except String Unit :=
  if notDestructurable args then
    .error "Cannot destructure arguments"
  else .ok ()

/-- `MCPServer.createProject(args)`. -/
def createProjectTool (args : JsValue) (t : Nat) (s : Store) :
    Except String (CallResult × Store) := do
  let _ ← destructure args
  let name := args.getField "name"
  let client := args.getField "client"
  let description := args.getField "description"
  let _ ← validateStringReq name "Name"
  let _ ← validateStringOpt client "Client"
  let _ ← validateStringOpt description "Description"
  let (id, s') ← dbCreateProject name client description t s
  .ok (.createProject id
    ("Project \"" ++ jsDisplay name ++ "\" created with ID " ++ toString id), s')

/-- `MCPServer.listProjects(args)`. -/
def listProjectsTool (args : JsValue) (s : Store) :
    Except String (CallResult × Store) := do
  let _ ← destructure args
  let client := args.getField "client"
  let _ ← validateStringOpt client "Client"
  .ok (.listProjects (dbGetProjects client s), s)

/-- `MCPServer.addTask(args)`: validates, checks the project exists
(producing the distinguishable not-found error), then inserts. The
destructuring default `priority = 'medium'` fires only on `undefined`. -/
def addTaskTool (args : JsValue) (t : Nat) (s : Store) :
    Except String (CallResult × Store) := do
  let _ ← destructure args
  let project_id := args.getField "project_id"
  let description := args.getField "description"
  let priority :=
    match args.getField "priority" with
    | .undefined => .str "medium"
    | v => v
  let category := args.getField "category"
  let assignee := args.getField "assignee"
  let due_date := args.getField "due_date"
  let pid ← validateId project_id "Project ID"
  let _ ← validateStringReq description "Description"
  let _ ← validatePriority priority
  let _ ← validateStringOpt category "Category"
  let _ ← validateStringOpt assignee "Assignee"
  let _ ← validateStringOpt due_date "Due date"
  match dbGetProject pid s with
  | none => .error ("Project with ID " ++ jsDisplay project_id ++ " not found")
  | some project =>
    let (id, s') ← dbAddTask pid description priority category assignee due_date t s
    .ok (.addTask id
      ("Task added with ID " ++ toString id ++ " to project \"" ++
        jsDisplay project.name ++ "\""), s')

/-- `MCPServer.updateTask(args)`: validates (note the source's leftover
`'Case ID'` field name), collects the fields that are `!== undefined` in
source order, and converts `changes = 0` into a not-found error. -/
def updateTaskTool (args : JsValue) (t : Nat) (s : Store) :
    Except String (CallResult × Store) := do
  let _ ← destructure args
  let id := args.getField "id"
  let status := args.getField "status"
  let notes := args.getField "notes"
  let priority := args.getField "priority"
  let category := args.getField "category"
  let description := args.getField "description"
  let assignee := args.getField "assignee"
  let due_date := args.getField "due_date"
  let n ← validateId id "Case ID"
  let _ ← validateStatus status
  let _ ← validatePriority priority
  let _ ← validateStringOpt notes "Notes"
  let _ ← validateStringOpt category "Category"
  let _ ← validateStringOpt description "Description"
  let _ ← validateStringOpt assignee "Assignee"
  let _ ← validateStringOpt due_date "Due date"
  let includeField := fun (k : String) (v : JsValue) (acc : List (String × JsValue)) =>
    match v with
    | .undefined => acc
    | _ => acc ++ [(k, v)]
  let updates : List (String × JsValue) := []
  let updates := includeField "status" status updates
  let updates := includeField "notes" notes updates
  let updates := includeField "priority" priority updates
  let updates := includeField "category" category updates
  let updates := includeField "description" description updates
  let updates := includeField "assignee" assignee updates
  let updates := includeField "due_date" due_date updates
  let (success, s') ← dbUpdateTask n updates t s
  if success then
    .ok (.updateTask ("Task " ++ toString n ++ " updated successfully"), s')
  else
    .error ("Task with ID " ++ toString n ++ " not found")

/-- `MCPServer.getTasks(args)`: validates the filters (`project_id` only
when present) and passes the raw `args` object to the store as the filter
set. -/
def getTasksTool (args : JsValue) (s : Store) :
    Except String (CallResult × Store) := do
  let _ ← destructure args
  let project_id := args.getField "project_id"
  let status := args.getField "status"
  let priority := args.getField "priority"
  let category := args.getField "category"
  let assignee := args.getField "assignee"
  let search := args.getField "search"
  let pidCheck : Except String Int :=
    match project_id with
    | .undefined => .ok 0
    | v => validateId v "Project ID"
  let _ ← pidCheck
  let _ ← validateStatus status
  let _ ← validatePriority priority
  let _ ← validateStringOpt category "Category"
  let _ ← validateStringOpt assignee "Assignee"
  let _ ← validateStringOpt search "Search"
  .ok (.getTasks (dbGetTasks args s), s)

/-- `MCPServer.getProjectSummary(args)`. -/
def getProjectSummaryTool (args : JsValue) (s : Store) :
    Except String (CallResult × Store) := do
  let _ ← destructure args
  let project_id := args.getField "project_id"
  let pid ← validateId project_id "Project ID"
  match dbGetProject pid s with
  | none => .error ("Project with ID " ++ jsDisplay project_id ++ " not found")
  | some project =>
    .ok (.projectSummary project.name pid (dbGetProjectSummary pid s), s)

/-- `MCPServer.deleteTask(args)`: converts `changes = 0` into a not-found
error. -/
def deleteTaskTool (args : JsValue) (t : Nat) (s : Store) :
    Except String (CallResult × Store) := do
  let _ ← destructure args
  let id := args.getField "id"
  let n ← validateId id "Task ID"
  let (success, s') := dbDeleteTask n t s
  if success then
    .ok (.deleteTask ("Task " ++ toString n ++ " deleted successfully"), s')
  else
    .error ("Task with ID " ++ toString n ++ " not found")

/-- `MCPServer.deleteProject(args)`: checks existence first (not-found
error), then deletes; the store cascades to the project's tasks. -/
def deleteProjectTool (args : JsValue) (_t : Nat) (s : Store) :
    Except String (CallResult × Store) := do
  let _ ← destructure args
  let id := args.getField "id"
  let n ← validateId id "Project ID"
  match dbGetProject n s with
  | none => .error ("Project with ID " ++ jsDisplay id ++ " not found")
  | some project =>
    let (_, s') := dbDeleteProject n s
    .ok (.deleteProject
      ("Project \"" ++ jsDisplay project.name ++
        "\" and all its tasks deleted successfully"), s')

/-! ## Response envelopes, routing and the transport framer
(`src/mcp-server.js`) -/

/-- The body of a JSON-RPC response envelope: the modelled `result`
member, the modelled `error` member (`{code, message}`), or — for
`initialize` and `tools/list` — their fixed payloads.  A written envelope
has exactly one of `result`/`error` set; `Envelope` keeps both as
`Option`s so that this is a provable property rather than a typing
artifact. -/
inductive ResultBody where
  | initResult
  | toolsList (names : List String)
  | toolCall (r : CallResult)

/-- `{"jsonrpc":"2.0", "id":…, "result":…}` or
`{"jsonrpc":"2.0", "id":…, "error":{"code":…, "message":…}}`. -/
structure Envelope where
  id : JsValue
  result : Option ResultBody
  error : Option (Int × String)

/-- `MCPServer.sendError(message, id = null)`. -/
def mkErrorEnvelope (message : String) (id : JsValue) : Envelope :=
  { id := id, result := none, error := some (-32000, message) }

/-- The names in the static `tools/list` catalog
(`MCPServer.handleToolsList`; the JSON-schema argument descriptors are
not modelled — no claim mentions them). -/
def toolCatalogNames : List String :=
  ["create_project", "list_projects", "add_task", "update_task",
   "get_tasks", "get_project_summary", "delete_task", "delete_project"]

/-- The `switch (name)` of `MCPServer.handleToolCall`: dispatch to a tool
handler; an unknown name throws `Unknown tool` (caught by the caller).  On
a handler error the store is unchanged. -/
def callTool (name args : JsValue) (t : Nat) (s : Store) :
    Except String CallResult × Store :=
  let lift : Except String (CallResult × Store) → Except String CallResult × Store :=
    fun r =>
      match r with
      | .ok (res, s') => (.ok res, s')
      | .error e => (.error e, s)
  match name with
  | .str "create_project" => lift (createProjectTool args t s)
  | .str "list_projects" => lift (listProjectsTool args s)
  | .str "add_task" => lift (addTaskTool args t s)
  | .str "update_task" => lift (updateTaskTool args t s)
  | .str "get_tasks" => lift (getTasksTool args s)
  | .str "get_project_summary" => lift (getProjectSummaryTool args s)
  | .str "delete_task" => lift (deleteTaskTool args t s)
  | .str "delete_project" => lift (deleteProjectTool args t s)
  | n => (.error ("Unknown tool: " ++ jsDisplay n), s)

/-- `MCPServer.handleToolCall(params, id)`: destructures `params` (throwing
out of the function — hence `Except` — when `params` is `null`/`undefined`,
since that line precedes the `try`), runs the tool, and wraps the outcome
as one response envelope carrying the request id: a `result` on success,
an `error` with code `-32000` on any thrown handler error. -/
def handleToolCall (params id : JsValue) (t : Nat) (s : Store) :
    Except String (Envelope × Store) :=
  if notDestructurable params then
    .error "Cannot destructure params"
  else
    let name := params.getField "name"
    let args := params.getField "arguments"
    match callTool name args t s with
    | (.ok res, s') =>
      .ok ({ id := id, result := some (.toolCall res), error := none }, s')
    | (.error e, s') =>
      .ok ({ id := id, result := none, error := some (-32000, e) }, s')

/-- `MCPServer.handleMessage(message)`: destructure the envelope
(`params` defaults to `{}` only when `undefined`), route on `method`; an
unknown method throws (`Except.error`), to be caught by the stream
handler. -/
def handleMessage (message : JsValue) (t : Nat) (s : Store) :
    Except String (Envelope × Store) :=
  if notDestructurable message then
    .error "Cannot destructure message"
  else
    let method := message.getField "method"
    let params :=
      match message.getField "params" with
      | .undefined => .obj []
      | v => v
    let id := message.getField "id"
    match method with
    | .str "initialize" =>
      .ok ({ id := id, result := some .initResult, error := none }, s)
    | .str "tools/list" =>
      .ok ({ id := id, result := some (.toolsList toolCatalogNames), error := none }, s)
    | .str "tools/call" => handleToolCall params id t s
    | m => .error ("Unknown method: " ++ jsDisplay m)

/-- The server's transport state: the accumulating stdin text buffer plus
the database. -/
structure ServerState where
  buffer : String
  store : Store

/-- Split a string at every `'\n'` (the successive `indexOf('\n')` slices
of the source): the result is the complete lines followed by the trailing
unterminated remainder, so it is always non-empty.  (Structural stand-in
for the library `splitOn "\n"`, which does not reduce inside the
kernel.) -/
def splitNlChars : List Char → List Char × List (List Char)
  | [] => ([], [])
  | c :: cs =>
    let (cur, rest) := splitNlChars cs
    if c = '\n' then ([], cur :: rest) else (c :: cur, rest)

def splitNl (s : String) : List String :=
  let (cur, rest) := splitNlChars s.toList
  (cur :: rest).map (fun l => ⟨l⟩)

/-- Re-join buffer parts with `'\n'` (inverse of `splitNl`). -/
def joinNl : List String → String
  | [] => ""
  | [x] => x
  | x :: xs => x ++ "\n" ++ joinNl xs

/-- The body of the `while` loop of `MCPServer.setupMessageHandling`, on
the buffer already split at newlines: `lines` are the complete lines (each
followed by a `\n` in the buffer), `last` is the trailing text without a
newline.  Each non-empty trimmed line is parsed and handled and its
response pushed; the first thrown error (malformed JSON or an unknown
method) is caught by the surrounding `try`/`catch`, which sends one error
envelope with `id: null` and leaves the *remaining* complete lines
unprocessed in the buffer (they were already sliced off the processed
prefix). Returns (store, new buffer, emitted envelopes in order). -/
def processParts (parse : String → Except String JsValue) (t : Nat) (s : Store) :
    List String → String → Store × String × List Envelope
  | [], last => (s, last, [])
  | line :: rest, last =>
    let l := jsTrim line
    if l = "" then processParts parse t s rest last
    else
      match parse l with
      | .error e =>
        (s, joinNl (rest ++ [last]), [mkErrorEnvelope e .null])
      | .ok message =>
        match handleMessage message t s with
        | .error e =>
          (s, joinNl (rest ++ [last]), [mkErrorEnvelope e .null])
        | .ok (response, s') =>
          let (s'', buf, outs) := processParts parse t s' rest last
          (s'', buf, response :: outs)

/-- One `process.stdin.on('data')` event: append the chunk to the buffer,
split out every complete newline-terminated line, and run the loop body.
`splitNl` returns the complete lines followed by the unterminated
remainder, exactly the successive `indexOf('\n')` slices of the source. -/
def serverStep (parse : String → Except String JsValue) (t : Nat)
    (st : ServerState) (chunk : String) : ServerState × List Envelope :=
  let parts := splitNl (st.buffer ++ chunk)
  let (s', buf, outs) :=
    processParts parse t st.store parts.dropLast (parts.getLastD "")
  ({ buffer := buf, store := s' }, outs)

/-! ## Client-side correlation (`test/mcp-smoke-test.js`, `MCPTestClient`) -/

/-- `REQUEST_TIMEOUT_MS` (the fixed per-request timeout duration). -/
def requestTimeoutMs : Nat := 8000

/-- The client's correlation state: `nextId` (initialised to 1) and the
pending-request table in insertion order.  Each entry also records its
timeout deadline (arm time + `requestTimeoutMs`).  An armed `setTimeout`
exists exactly for the entries of `pending`: `call` arms it, the `resolve`
/ `reject` wrappers stored in the table clear it, and the timer callback
itself removes the entry. -/
structure ClientState where
  nextId : Nat
  pending : List (Nat × Nat)

def initialClientState : ClientState := { nextId := 1, pending := [] }

/-- What the completion callbacks observably do to the caller of
`MCPTestClient.call`: a request is assigned an id, resolved with a
response, rejected by the timeout, or rejected because the server process
exited (carrying the exit code). -/
inductive ClientOutcome where
  | assigned (id : Nat)
  | completed (id : Nat)
  | failedTimeout (id : Nat)
  | failedExit (id : Nat) (code : Int)

/-- The events the client reacts to: `call now` (the caller issues a
request at time `now`), `respond v` (a decoded stdout line whose `id`
member is `v`), `timerFire now id` (the `setTimeout` callback for request
`id` runs at time `now`; a real timer only runs while armed and not before
its deadline, so the step ignores anything else), and `exited code` (the
`'exit'` handler). -/
inductive ClientEvent where
  | call (now : Nat)
  | respond (id : JsValue)
  | timerFire (now : Nat) (id : Nat)
  | exited (code : Int)

/-- One observable transition of `MCPTestClient`:

* `call`: `const id = this.nextId++`, store the callbacks keyed by `id`,
  arm the timeout;
* `respond rid`: the stdout data handler's
  `if (message.id && this.pending.has(message.id))` — on a match, delete
  the entry and resolve it (which clears its timer); otherwise the line is
  dropped silently;
* `timerFire`: the timeout callback deletes the entry and rejects the
  caller with the timeout error;
* `exited code`: the exit handler rejects every still-pending entry (in
  insertion order) with the process-exited error carrying `code`, then
  clears the table. -/
def clientStep (s : ClientState) : ClientEvent → ClientState × List ClientOutcome
  | .call now =>
    let id := s.nextId
    ({ nextId := id + 1, pending := s.pending ++ [(id, now + requestTimeoutMs)] },
      [.assigned id])
  | .respond rid =>
    match rid with
    | .num n =>
      if truthy (.num n) && s.pending.any (fun e => (e.1 : Int) = n) then
        ({ s with pending := s.pending.filter (fun e => (e.1 : Int) ≠ n) },
          [.completed n.toNat])
      else (s, [])
    | _ => (s, [])
  | .timerFire now id =>
    match s.pending.find? (fun e => e.1 = id) with
    | some (_, deadline) =>
      if deadline ≤ now then
        ({ s with pending := s.pending.filter (fun e => e.1 ≠ id) },
          [.failedTimeout id])
      else (s, [])
    | none => (s, [])
  | .exited code =>
    ({ s with pending := [] }, s.pending.map (fun e => .failedExit e.1 code))

/-- A whole run of the client over a list of events, concatenating the
observable outcomes. -/
def runClient (s : ClientState) : List ClientEvent → ClientState × List ClientOutcome
  | [] => (s, [])
  | e :: es =>
    let (s', outs) := clientStep s e
    let (s'', outs') := runClient s' es
    (s'', outs ++ outs')

/-- The ids handed out during a run, in order. -/
def assignedIds (outs : List ClientOutcome) : List Nat :=
  outs.filterMap fun o =>
    match o with
    | .assigned id => some id
    | _ => none

/-- Number of `call` events in a list. -/
def countCalls (es : List ClientEvent) : Nat :=
  es.countP fun e =>
    match e with
    | .call _ => true
    | _ => false

/-! ## Shared concrete data for witnesses and counterexamples -/

/-- A concrete project row (id 1). -/
def demoProject : Project :=
  { id := 1, name := .str "P", client := .null, description := .null,
    created_at := 0, updated_at := 0 }

/-- A concrete task row (id 1) under `demoProject`. -/
def demoTask : TaskRow :=
  { id := 1, project_id := 1, description := .str "d", priority := .str "medium",
    status := .str "pending", category := .null, assignee := .null,
    due_date := .null, notes := .null, created_at := 0, updated_at := 0 }

/-- A concrete store holding `demoProject` and `demoTask`. -/
def demoStore : Store :=
  { projects := [demoProject], tasks := [demoTask],
    nextProjectId := 2, nextTaskId := 2 }

/-- The empty store. -/
def emptyStore : Store :=
  { projects := [], tasks := [], nextProjectId := 1, nextTaskId := 1 }

/-! ## C3 — empty effective update sets are rejected -/

/-- **C3.**  For every update operation (Task or Project) whose supplied
field mapping contains no field from the respective allowed-field
whitelist, the store throws `'No valid fields to update'` — uniformly for
Project and Task updates — and performs no write: the error is returned
for every store `s`, before the row is even looked up, and an `.error`
outcome carries no successor store. -/
theorem emptyUpdateSetRejected (id : Int) (updates : List (String × JsValue))
    (t : Nat) (s : Store) :
    ((∀ u ∈ updates, u.1 ∉ allowedProjectFields) →
      dbUpdateProject id updates t s = .error "No valid fields to update") ∧
    ((∀ u ∈ updates, u.1 ∉ allowedTaskFields) →
      dbUpdateTask id updates t s = .error "No valid fields to update") := by
  constructor
  · intro h
    have hf : updates.filter (fun u => allowedProjectFields.contains u.1) = [] := by
      rw [List.filter_eq_nil_iff]
      intro u hu
      simpa using h u hu
    unfold dbUpdateProject
    rw [hf]
  · intro h
    have hf : updates.filter (fun u => allowedTaskFields.contains u.1) = [] := by
      rw [List.filter_eq_nil_iff]
      intro u hu
      simpa using h u hu
    unfold dbUpdateTask
    rw [hf]

/-- Witness for C3 at a concrete input: an update mapping whose fields
(`id`, `bogus`) are outside both whitelists is rejected by both update
operations on the demo store. -/
theorem emptyUpdateSetRejectedWitness :
    dbUpdateProject 1 [("id", .num 4), ("bogus", .str "v")] 7 demoStore
        = .error "No valid fields to update" ∧
    dbUpdateTask 1 [("id", .num 4), ("bogus", .str "v")] 7 demoStore
        = .error "No valid fields to update" := by
  have h := emptyUpdateSetRejected 1 [("id", .num 4), ("bogus", .str "v")] 7 demoStore
  exact ⟨h.1 (by decide), h.2 (by decide)⟩

/-! ## C4 — deleting a project cascades to its tasks -/

/-- The demo store after project 1 (and, by cascade, its task) is deleted. -/
def demoStoreAfterDelete : Store :=
  { projects := [], tasks := [], nextProjectId := 2, nextTaskId := 2 }

/-- **C4.**  For every successful `delete_project` call, every task whose
`project_id` referenced the deleted project is removed from the store (by
the storage layer's `ON DELETE CASCADE`), and a subsequent `get_tasks`
call filtered by that project id succeeds and returns an empty list. -/
theorem deleteProjectCascades (n : Int) (t : Nat) (s : Store)
    (r : CallResult) (s' : Store)
    (h : deleteProjectTool (.obj [("id", .num n)]) t s = .ok (r, s')) :
    (∀ task ∈ s'.tasks, task.project_id ≠ n) ∧
    getTasksTool (.obj [("project_id", .num n)]) s'
      = .ok (.getTasks [], s') := by
  by_cases hn : (0 : Int) < n
  · cases hget : dbGetProject n s with
    | none =>
      simp [deleteProjectTool, destructure, notDestructurable, validateId,
        hn, hget, JsValue.getField, bind, Except.bind] at h
    | some project =>
      simp [deleteProjectTool, destructure, notDestructurable, validateId,
        hn, hget, JsValue.getField, dbDeleteProject, bind, Except.bind] at h
      obtain ⟨-, hs'⟩ := h
      have htasks : s'.tasks
          = s.tasks.filter (fun task => !decide (task.project_id = n)) := by
        rw [← hs']
      have hnone : ∀ task ∈ s'.tasks, task.project_id ≠ n := by
        intro task htask
        rw [htasks] at htask
        have := List.of_mem_filter htask
        simpa using this
      refine ⟨hnone, ?_⟩
      have hfilter : dbGetTasks (.obj [("project_id", .num n)]) s' = [] := by
        unfold dbGetTasks
        simp only [JsValue.getField]
        have hkeep : s'.tasks.filter
            (fun task => sqlEq (.num task.project_id) (.num n)) = [] := by
          rw [List.filter_eq_nil_iff]
          intro task htask
          have := hnone task htask
          simp [sqlEq]
          exact this
        simp [truthy, hn.ne', hkeep, sortByKeyDesc]
      simp [getTasksTool, destructure, notDestructurable, validateId, hn,
        JsValue.getField, hfilter, validateStatus, validatePriority,
        validateStringOpt, truthy, bind, Except.bind]
  · simp [deleteProjectTool, destructure, notDestructurable, validateId,
      hn, JsValue.getField, bind, Except.bind] at h

/-- Witness for C4: deleting project 1 from the demo store succeeds, and
afterwards no task references it and `get_tasks` for it returns `[]`. -/
theorem deleteProjectCascadesWitness :
    (∀ task ∈ demoStoreAfterDelete.tasks, task.project_id ≠ (1 : Int)) ∧
    getTasksTool (.obj [("project_id", .num 1)]) demoStoreAfterDelete
      = .ok (.getTasks [], demoStoreAfterDelete) :=
  deleteProjectCascades 1 5 demoStore
    (.deleteProject "Project \"P\" and all its tasks deleted successfully")
    demoStoreAfterDelete rfl

/-! ## C5 — task mutations touch the owning project's `updated_at` -/

/-- `find?` of the touched project returns the touched row. -/
theorem findMapTouch (pid : Int) (t : Nat) : ∀ ps : List Project,
    (ps.map (fun p => if p.id = pid then { p with updated_at := t } else p)).find?
        (fun p => p.id = pid)
      = (ps.find? (fun p => p.id = pid)).map (fun p => { p with updated_at := t })
  | [] => rfl
  | p :: ps => by
    by_cases hp : p.id = pid
    · simp [List.find?_cons, hp]
    · simp [List.find?_cons, hp, findMapTouch pid t ps]

/-- Looking up a project after `touchProject` on the same id yields the
project with `updated_at` set to the touch time. -/
theorem dbGetProject_touch (pid : Int) (t : Nat) (s : Store) :
    dbGetProject pid (touchProject pid t s)
      = (dbGetProject pid s).map (fun p => { p with updated_at := t }) := by
  unfold dbGetProject touchProject
  exact findMapTouch pid t s.projects

/-- `dbGetProject` is a `find?` over the projects table (definitional
restatement, convenient for rewriting across record updates that leave
`projects` unchanged). -/
theorem dbGetProject_eq_find (pid : Int) (s : Store) :
    dbGetProject pid s = s.projects.find? (fun p => p.id = pid) := rfl

/-- **C5.**  Every successful task mutation — `add_task`, `update_task`,
`delete_task` — also sets the owning project's `updated_at` to the
operation's current timestamp `t`; consequently, when wall-clock time is
non-decreasing (`p.updated_at ≤ t`), the owning project's `updated_at`
never decreases across such mutations. -/
theorem taskMutationTouchesProject (t : Nat) (s : Store) :
    (∀ (pid : Int) (d : String) (r : CallResult) (s' : Store),
      addTaskTool (.obj [("project_id", .num pid), ("description", .str d)]) t s
          = .ok (r, s') →
      ∃ p', dbGetProject pid s' = some p' ∧ p'.updated_at = t ∧
        ∀ p, dbGetProject pid s = some p →
          p.updated_at ≤ t → p.updated_at ≤ p'.updated_at) ∧
    (∀ (tid : Int) (txt : String) (r : CallResult) (s' : Store) (task : TaskRow),
      updateTaskTool (.obj [("id", .num tid), ("notes", .str txt)]) t s
          = .ok (r, s') →
      s.tasks.find? (fun q => q.id = tid) = some task →
      ∀ p, dbGetProject task.project_id s = some p →
        ∃ p', dbGetProject task.project_id s' = some p' ∧ p'.updated_at = t ∧
          (p.updated_at ≤ t → p.updated_at ≤ p'.updated_at)) ∧
    (∀ (tid : Int) (r : CallResult) (s' : Store) (task : TaskRow),
      deleteTaskTool (.obj [("id", .num tid)]) t s = .ok (r, s') →
      s.tasks.find? (fun q => q.id = tid) = some task →
      ∀ p, dbGetProject task.project_id s = some p →
        ∃ p', dbGetProject task.project_id s' = some p' ∧ p'.updated_at = t ∧
          (p.updated_at ≤ t → p.updated_at ≤ p'.updated_at)) := by
  refine ⟨?_, ?_, ?_⟩
  · intro pid d r s' h
    have hvp : validatePriority (.str "medium") = .ok () := rfl
    have hvc : validateStringOpt .undefined "Category" = .ok () := rfl
    have hva : validateStringOpt .undefined "Assignee" = .ok () := rfl
    have hvd : validateStringOpt .undefined "Due date" = .ok () := rfl
    by_cases hpid : (0 : Int) < pid
    · by_cases hd : jsTrim d = ""
      · simp [addTaskTool, destructure, notDestructurable, validateId, hpid,
          validateStringReq, hd, JsValue.getField, hvp, hvc, hva, hvd,
          bind, Except.bind] at h
      · cases hget : dbGetProject pid s with
        | none =>
          simp [addTaskTool, destructure, notDestructurable, validateId, hpid,
            validateStringReq, hd, hget, JsValue.getField, hvp, hvc, hva, hvd,
            bind, Except.bind] at h
        | some project =>
          have hfind : s.projects.find? (fun p => p.id = pid) = some project := hget
          have hany : s.projects.any (fun p => p.id = pid) = true := by
            rw [List.any_eq_true]
            refine ⟨project, List.mem_of_find?_eq_some hfind, ?_⟩
            have h2 := List.find?_some hfind
            simpa using h2
          have hnn : sqliteNotNull (.str d) = true := rfl
          have hpr : sqliteEnumOk (.str "medium") taskPriorities = true := rfl
          have hst : sqliteEnumOk (.str "pending") taskStatuses = true := rfl
          simp [addTaskTool, destructure, notDestructurable, validateId, hpid,
            validateStringReq, hd, hget, JsValue.getField, dbAddTask, hany,
            hvp, hvc, hva, hvd, taskRowOk, hnn, hpr, hst, normNull,
            bind, Except.bind] at h
          obtain ⟨-, hs'⟩ := h
          rw [← hs', dbGetProject_touch, dbGetProject_eq_find]
          dsimp only
          rw [hfind]
          refine ⟨{ project with updated_at := t }, rfl, rfl, ?_⟩
          intro p hp
          cases Option.some.inj hp
          intro hle
          simpa using hle
    · simp [addTaskTool, destructure, notDestructurable, validateId, hpid,
        JsValue.getField, bind, Except.bind] at h
  · intro tid txt r s' task h htask
    have hvs : validateStatus .undefined = .ok () := rfl
    have hvp : validatePriority .undefined = .ok () := rfl
    have hvn : validateStringOpt (.str txt) "Notes" = .ok () := rfl
    have hvc : validateStringOpt .undefined "Category" = .ok () := rfl
    have hvde : validateStringOpt .undefined "Description" = .ok () := rfl
    have hva : validateStringOpt .undefined "Assignee" = .ok () := rfl
    have hvd : validateStringOpt .undefined "Due date" = .ok () := rfl
    by_cases htid : (0 : Int) < tid
    · have hrowEq :
          taskRowOk { (setTaskField task ("notes", .str txt)) with updated_at := t }
            = taskRowOk task := rfl
      cases hrow : taskRowOk task with
      | false =>
        simp [updateTaskTool, destructure, notDestructurable, validateId, htid,
          JsValue.getField, hvs, hvp, hvn, hvc, hvde, hva, hvd,
          dbUpdateTask, allowedTaskFields, htask, hrowEq, hrow,
          bind, Except.bind] at h
      | true =>
        simp [updateTaskTool, destructure, notDestructurable, validateId, htid,
          JsValue.getField, hvs, hvp, hvn, hvc, hvde, hva, hvd,
          dbUpdateTask, allowedTaskFields, htask, hrowEq, hrow,
          bind, Except.bind] at h
        obtain ⟨-, hs'⟩ := h
        intro p hp
        have hfind : s.projects.find? (fun q => q.id = task.project_id) = some p := hp
        rw [← hs', dbGetProject_touch, dbGetProject_eq_find]
        dsimp only
        rw [hfind]
        refine ⟨{ p with updated_at := t }, rfl, rfl, ?_⟩
        intro hle
        simpa using hle
    · simp [updateTaskTool, destructure, notDestructurable, validateId, htid,
        JsValue.getField, bind, Except.bind] at h
  · intro tid r s' task h htask
    by_cases htid : (0 : Int) < tid
    · simp [deleteTaskTool, destructure, notDestructurable, validateId, htid,
        JsValue.getField, dbDeleteTask, htask, bind, Except.bind] at h
      obtain ⟨-, hs'⟩ := h
      intro p hp
      have hfind : s.projects.find? (fun q => q.id = task.project_id) = some p := hp
      rw [← hs', dbGetProject_touch, dbGetProject_eq_find]
      dsimp only
      rw [hfind]
      refine ⟨{ p with updated_at := t }, rfl, rfl, ?_⟩
      intro hle
      simpa using hle
    · simp [deleteTaskTool, destructure, notDestructurable, validateId, htid,
        JsValue.getField, bind, Except.bind] at h

/-- The demo store after `add_task` of task 2 ("y") at time 42. -/
def demoStoreAfterAdd : Store :=
  { projects := [{ id := 1, name := .str "P", client := .null,
                   description := .null, created_at := 0, updated_at := 42 }],
    tasks := [demoTask,
      { id := 2, project_id := 1, description := .str "y",
        priority := .str "medium", status := .str "pending", category := .null,
        assignee := .null, due_date := .null, notes := .null,
        created_at := 42, updated_at := 42 }],
    nextProjectId := 2, nextTaskId := 3 }

/-- The demo store after `update_task` of task 1's notes at time 42. -/
def demoStoreAfterNotesUpdate : Store :=
  { projects := [{ id := 1, name := .str "P", client := .null,
                   description := .null, created_at := 0, updated_at := 42 }],
    tasks := [{ demoTask with notes := .str "nn", updated_at := 42 }],
    nextProjectId := 2, nextTaskId := 2 }

/-- The demo store after `delete_task` of task 1 at time 42. -/
def demoStoreAfterTaskDelete : Store :=
  { projects := [{ id := 1, name := .str "P", client := .null,
                   description := .null, created_at := 0, updated_at := 42 }],
    tasks := [], nextProjectId := 2, nextTaskId := 2 }

/-- Witness for C5: on the demo store at time 42, each of the three task
mutations succeeds and leaves project 1 with `updated_at = 42`. -/
theorem taskMutationTouchesProjectWitness :
    (∃ p', dbGetProject 1 demoStoreAfterAdd = some p' ∧ p'.updated_at = 42 ∧
      ∀ p, dbGetProject 1 demoStore = some p →
        p.updated_at ≤ 42 → p.updated_at ≤ p'.updated_at) ∧
    (∃ p', dbGetProject demoTask.project_id demoStoreAfterNotesUpdate = some p' ∧
      p'.updated_at = 42 ∧
      (demoProject.updated_at ≤ 42 → demoProject.updated_at ≤ p'.updated_at)) ∧
    (∃ p', dbGetProject demoTask.project_id demoStoreAfterTaskDelete = some p' ∧
      p'.updated_at = 42 ∧
      (demoProject.updated_at ≤ 42 → demoProject.updated_at ≤ p'.updated_at)) := by
  have h := taskMutationTouchesProject 42 demoStore
  exact ⟨h.1 1 "y" (.addTask 2 "Task added with ID 2 to project \"P\"")
      demoStoreAfterAdd rfl,
    h.2.1 1 "nn" (.updateTask "Task 1 updated successfully")
      demoStoreAfterNotesUpdate demoTask rfl rfl demoProject rfl,
    h.2.2 1 (.deleteTask "Task 1 deleted successfully")
      demoStoreAfterTaskDelete demoTask rfl rfl demoProject rfl⟩

/-! ## C7 — project summary counts and percentages -/

/-- The spec's rounding operator, written independently of the code:
`round(x) = ⌊x + 1/2⌋` on nonnegative exact rationals (the behaviour of
JS `Math.round` there). -/
def specRound (x : ℚ) : ℕ := ⌊x + 1 / 2⌋₊

/-- The code's `Nat`-division percentage agrees with the spec's
`round(num/total·100)` whenever `total > 0`. -/
theorem jsRoundPct_eq_specRound (num total : Nat) (ht : 0 < total) :
    jsRoundPct num total = specRound ((num : ℚ) / total * 100) := by
  unfold jsRoundPct specRound
  have htQ : (total : ℚ) ≠ 0 := Nat.cast_ne_zero.mpr ht.ne'
  have hcast : (num : ℚ) / total * 100 + 1 / 2
      = ((200 * num + total : ℕ) : ℚ) / ((2 * total : ℕ) : ℚ) := by
    push_cast
    field_simp
    ring
  rw [hcast, Nat.floor_div_eq_div]

/-- The code's percentage never exceeds 100 when the numerator counts a
sub-population of `total`. -/
theorem jsRoundPct_le_100 (num total : Nat) (hn : num ≤ total) (ht : 0 < total) :
    jsRoundPct num total ≤ 100 := by
  unfold jsRoundPct
  have h1 : 200 * num + total ≤ total + 2 * total * 100 := by omega
  calc (200 * num + total) / (2 * total)
      ≤ (total + 2 * total * 100) / (2 * total) := Nat.div_le_div_right h1
    _ = 100 := by
        rw [Nat.add_mul_div_left _ _ (by omega : 0 < 2 * total),
          Nat.div_eq_of_lt (by omega : total < 2 * total)]

/-- **C7.**  For every `get_project_summary` call on an existing project
(valid positive id), the call succeeds and the returned summary satisfies:
`total` is the number of tasks with that `project_id` at query time;
`completion_percentage = round(deployed/total·100)` and
`progress_percentage = round((developed+tested+deployed)/total·100)` when
`total > 0`; both percentages are `0` when `total = 0`; and
`completion_percentage` is always in `[0, 100]` (it is a `Nat`, hence
`≥ 0`, and `≤ 100` is proved). -/
theorem getProjectSummaryCorrect (pid : Int) (s : Store) (project : Project)
    (hpid : 0 < pid) (hget : dbGetProject pid s = some project) :
    ∃ sum, getProjectSummaryTool (.obj [("project_id", .num pid)]) s
        = .ok (.projectSummary project.name pid sum, s) ∧
      sum.total = (s.tasks.filter (fun task => task.project_id = pid)).length ∧
      (0 < sum.total →
        sum.completion_percentage
            = specRound ((sum.deployed : ℚ) / sum.total * 100) ∧
        sum.progress_percentage
            = specRound (((sum.developed + sum.tested + sum.deployed : ℕ) : ℚ)
                / sum.total * 100)) ∧
      (sum.total = 0 →
        sum.completion_percentage = 0 ∧ sum.progress_percentage = 0) ∧
      sum.completion_percentage ≤ 100 := by
  refine ⟨dbGetProjectSummary pid s, ?_, rfl, ?_, ?_, ?_⟩
  · simp [getProjectSummaryTool, destructure, notDestructurable, validateId,
      hpid, hget, JsValue.getField, bind, Except.bind]
  · intro htot
    unfold dbGetProjectSummary at htot ⊢
    simp only at htot ⊢
    rw [if_pos htot, if_pos htot]
    constructor
    · exact jsRoundPct_eq_specRound _ _ htot
    · exact jsRoundPct_eq_specRound _ _ htot
  · intro htot
    unfold dbGetProjectSummary at htot ⊢
    simp only at htot ⊢
    rw [if_neg (by omega), if_neg (by omega)]
    exact ⟨rfl, rfl⟩
  · by_cases htot :
        0 < (s.tasks.filter (fun task => task.project_id = pid)).length
    · unfold dbGetProjectSummary
      simp only
      rw [if_pos htot]
      exact jsRoundPct_le_100 _ _ (List.countP_le_length _) htot
    · unfold dbGetProjectSummary
      simp only
      rw [if_neg htot]
      exact Nat.zero_le 100

/-- Witness for C7 at project 1 of the demo store. -/
theorem getProjectSummaryCorrectWitness :
    ∃ sum, getProjectSummaryTool (.obj [("project_id", .num 1)]) demoStore
        = .ok (.projectSummary demoProject.name 1 sum, demoStore) ∧
      sum.total
          = (demoStore.tasks.filter (fun task => task.project_id = (1 : Int))).length ∧
      (0 < sum.total →
        sum.completion_percentage
            = specRound ((sum.deployed : ℚ) / sum.total * 100) ∧
        sum.progress_percentage
            = specRound (((sum.developed + sum.tested + sum.deployed : ℕ) : ℚ)
                / sum.total * 100)) ∧
      (sum.total = 0 →
        sum.completion_percentage = 0 ∧ sum.progress_percentage = 0) ∧
      sum.completion_percentage ≤ 100 :=
  getProjectSummaryCorrect 1 demoStore demoProject (by decide) rfl

/-! ## C9 — create/fetch round-trip -/

/-- If `find?` misses the whole first list, searching the concatenation
searches the second. -/
theorem findAppendOfNone {α : Type} (p : α → Bool) (l₁ l₂ : List α)
    (h : l₁.find? p = none) : (l₁ ++ l₂).find? p = l₂.find? p := by
  induction l₁ with
  | nil => rfl
  | cons x xs ih =>
    cases hx : p x with
    | true => simp [List.find?_cons, hx] at h
    | false =>
      simp only [List.find?_cons, hx] at h
      rw [List.cons_append, List.find?_cons, hx]
      exact ih h

/-- **C9.**  For every successfully created project, fetching it by the
returned id immediately afterwards yields a record whose `name`, `client`
and `description` are identical to the values supplied at creation
(`client`/`description` compared when supplied, i.e. not `undefined`; an
absent optional argument is stored as SQL `NULL`).  The freshness
hypothesis is the `AUTOINCREMENT` invariant: no existing row carries the
next id. -/
theorem createProjectRoundTrip (name client description : JsValue)
    (t : Nat) (s : Store)
    (hfresh : ∀ p ∈ s.projects, p.id ≠ s.nextProjectId)
    (hname : validateStringReq name "Name" = .ok ())
    (hclient : validateStringOpt client "Client" = .ok ())
    (hdesc : validateStringOpt description "Description" = .ok ()) :
    ∃ s', createProjectTool
        (.obj [("name", name), ("client", client), ("description", description)]) t s
        = .ok (.createProject s.nextProjectId
            ("Project \"" ++ jsDisplay name ++ "\" created with ID "
              ++ toString s.nextProjectId), s') ∧
      ∃ p, dbGetProject s.nextProjectId s' = some p ∧
        p.name = name ∧
        (client ≠ .undefined → p.client = client) ∧
        (description ≠ .undefined → p.description = description) ∧
        (client = .undefined → p.client = .null) ∧
        (description = .undefined → p.description = .null) := by
  cases name with
  | undefined => simp [validateStringReq] at hname
  | null => simp [validateStringReq] at hname
  | bool b => simp [validateStringReq] at hname
  | num n => simp [validateStringReq] at hname
  | obj fs => simp [validateStringReq] at hname
  | str ns =>
    refine ⟨{ s with
      projects := s.projects ++
        [{ id := s.nextProjectId, name := .str ns,
           client := normNull client, description := normNull description,
           created_at := t, updated_at := t }],
      nextProjectId := s.nextProjectId + 1 }, ?_, ?_⟩
    · simp [createProjectTool, destructure, notDestructurable, JsValue.getField,
        hname, hclient, hdesc, dbCreateProject, normNull, sqliteNotNull,
        bind, Except.bind]
    · have hnone : s.projects.find? (fun p => p.id = s.nextProjectId) = none := by
        rw [List.find?_eq_none]
        intro p hp
        simpa using hfresh p hp
      refine ⟨{ id := s.nextProjectId, name := .str ns,
                client := normNull client, description := normNull description,
                created_at := t, updated_at := t }, ?_, rfl, ?_, ?_, ?_, ?_⟩
      · rw [dbGetProject_eq_find]
        dsimp only
        rw [findAppendOfNone _ _ _ hnone]
        simp [List.find?_cons]
      · intro hc
        cases client <;> simp_all [normNull]
      · intro hd
        cases description <;> simp_all [normNull]
      · intro hc
        subst hc
        rfl
      · intro hd
        subst hd
        rfl

/-- Witness for C9: creating ("N", "C", null) on the demo store and
fetching id 2 round-trips the supplied values. -/
theorem createProjectRoundTripWitness :
    ∃ s', createProjectTool
        (.obj [("name", .str "N"), ("client", .str "C"), ("description", .null)])
        9 demoStore
        = .ok (.createProject demoStore.nextProjectId
            ("Project \"" ++ jsDisplay (.str "N") ++ "\" created with ID "
              ++ toString demoStore.nextProjectId), s') ∧
      ∃ p, dbGetProject demoStore.nextProjectId s' = some p ∧
        p.name = .str "N" ∧
        ((JsValue.str "C") ≠ .undefined → p.client = .str "C") ∧
        ((JsValue.null) ≠ .undefined → p.description = .null) ∧
        ((JsValue.str "C") = .undefined → p.client = .null) ∧
        ((JsValue.null) = .undefined → p.description = .null) :=
  createProjectRoundTrip (.str "N") (.str "C") .null 9 demoStore
    (by decide) rfl rfl rfl

/-! ## C2 — enum validation of priority/status -/

/-- **C2, counterexample.**  The claim "any priority/status value outside
the enumerated sets is rejected by the dispatcher before any store
operation" is false as stated: `validateStatus`/`validatePriority` test
`if (status && ...)`, so the falsy out-of-enum value `""` bypasses
validation — `get_tasks {status: ""}` succeeds and queries the store
(returning its task list) — and `add_task` never validates a `status`
argument at all, so a truthy out-of-enum `status` reaches `add_task`
without rejection and the insert is performed. -/
theorem enumValidationBypassCounterexample :
    (("" ∈ taskStatuses) → False) ∧
    getTasksTool (.obj [("status", .str "")]) demoStore
      = .ok (.getTasks [demoTask], demoStore) ∧
    (("bogus" ∈ taskStatuses) → False) ∧
    addTaskTool (.obj [("project_id", .num 1), ("description", .str "y"),
        ("status", .str "bogus")]) 42 demoStore
      = .ok (.addTask 2 "Task added with ID 2 to project \"P\"",
          demoStoreAfterAdd) :=
  ⟨by decide, rfl, by decide, rfl⟩

/-- **C2, amended.**  For every `tools/call` to `add_task`, `update_task`
or `get_tasks` whose arguments include a *truthy* `priority` value not in
the priority enum, or — for `update_task`/`get_tasks` — a *truthy*
`status` value not in the status enum, the dispatcher rejects the request
with a validation error before any store operation is performed: the
resulting error is the same for every store (the store is never
consulted), and the store is left unchanged.  (Falsy values such as `""`
bypass validation, and `add_task` ignores `status`; see the
counterexample.) -/
theorem enumValidationRejectsTruthy (args : JsValue) (t : Nat) :
    (truthy (args.getField "priority") = true →
      isEnumStr (args.getField "priority") taskPriorities = false →
      (∃ e, ∀ s, addTaskTool args t s = .error e) ∧
      (∃ e, ∀ s, updateTaskTool args t s = .error e) ∧
      (∃ e, ∀ s, getTasksTool args s = .error e)) ∧
    (truthy (args.getField "status") = true →
      isEnumStr (args.getField "status") taskStatuses = false →
      (∃ e, ∀ s, updateTaskTool args t s = .error e) ∧
      (∃ e, ∀ s, getTasksTool args s = .error e)) := by
  constructor
  · intro hpt hpe
    have hvp : validatePriority (args.getField "priority")
        = .error ("Invalid priority: " ++ jsDisplay (args.getField "priority")
            ++ ". Must be one of: low, medium, high, critical") := by
      unfold validatePriority
      rw [hpt, hpe]
      rfl
    have hpv : (match args.getField "priority" with
        | .undefined => JsValue.str "medium"
        | v => v) = args.getField "priority" := by
      cases hv : args.getField "priority"
      case undefined =>
        rw [hv] at hpt
        simp [truthy] at hpt
      all_goals rfl
    refine ⟨?_, ?_, ?_⟩
    · cases hd : notDestructurable args with
      | true =>
        exact ⟨"Cannot destructure arguments", fun s => by
          simp [addTaskTool, destructure, hd, bind, Except.bind]⟩
      | false =>
        cases hid : validateId (args.getField "project_id") "Project ID" with
        | error e =>
          exact ⟨e, fun s => by
            simp [addTaskTool, destructure, hd, hid, bind, Except.bind]⟩
        | ok n =>
          cases hds : validateStringReq (args.getField "description") "Description" with
          | error e =>
            exact ⟨e, fun s => by
              simp [addTaskTool, destructure, hd, hid, hds, bind, Except.bind]⟩
          | ok u =>
            exact ⟨"Invalid priority: " ++ jsDisplay (args.getField "priority")
                ++ ". Must be one of: low, medium, high, critical", fun s => by
              simp [addTaskTool, destructure, hd, hid, hds, hpv, hvp,
                bind, Except.bind]⟩
    · cases hd : notDestructurable args with
      | true =>
        exact ⟨"Cannot destructure arguments", fun s => by
          simp [updateTaskTool, destructure, hd, bind, Except.bind]⟩
      | false =>
        cases hid : validateId (args.getField "id") "Case ID" with
        | error e =>
          exact ⟨e, fun s => by
            simp [updateTaskTool, destructure, hd, hid, bind, Except.bind]⟩
        | ok n =>
          cases hvs : validateStatus (args.getField "status") with
          | error e =>
            exact ⟨e, fun s => by
              simp [updateTaskTool, destructure, hd, hid, hvs, bind, Except.bind]⟩
          | ok u =>
            exact ⟨"Invalid priority: " ++ jsDisplay (args.getField "priority")
                ++ ". Must be one of: low, medium, high, critical", fun s => by
              simp [updateTaskTool, destructure, hd, hid, hvs, hvp,
                bind, Except.bind]⟩
    · cases hd : notDestructurable args with
      | true =>
        exact ⟨"Cannot destructure arguments", fun s => by
          simp [getTasksTool, destructure, hd, bind, Except.bind]⟩
      | false =>
        cases hid : (match args.getField "project_id" with
            | .undefined => (.ok 0 : Except String Int)
            | v => validateId v "Project ID") with
        | error e =>
          exact ⟨e, fun s => by
            simp [getTasksTool, destructure, hd, hid, bind, Except.bind]⟩
        | ok n =>
          cases hvs : validateStatus (args.getField "status") with
          | error e =>
            exact ⟨e, fun s => by
              simp [getTasksTool, destructure, hd, hid, hvs, bind, Except.bind]⟩
          | ok u =>
            exact ⟨"Invalid priority: " ++ jsDisplay (args.getField "priority")
                ++ ". Must be one of: low, medium, high, critical", fun s => by
              simp [getTasksTool, destructure, hd, hid, hvs, hvp,
                bind, Except.bind]⟩
  · intro hst hse
    have hvs : validateStatus (args.getField "status")
        = .error ("Invalid status: " ++ jsDisplay (args.getField "status")
            ++ ". Must be one of: pending, in-progress, developed, tested, deployed, blocked") := by
      unfold validateStatus
      rw [hst, hse]
      rfl
    constructor
    · cases hd : notDestructurable args with
      | true =>
        exact ⟨"Cannot destructure arguments", fun s => by
          simp [updateTaskTool, destructure, hd, bind, Except.bind]⟩
      | false =>
        cases hid : validateId (args.getField "id") "Case ID" with
        | error e =>
          exact ⟨e, fun s => by
            simp [updateTaskTool, destructure, hd, hid, bind, Except.bind]⟩
        | ok n =>
          exact ⟨"Invalid status: " ++ jsDisplay (args.getField "status")
                ++ ". Must be one of: pending, in-progress, developed, tested, deployed, blocked", fun s => by
            simp [updateTaskTool, destructure, hd, hid, hvs, bind, Except.bind]⟩
    · cases hd : notDestructurable args with
      | true =>
        exact ⟨"Cannot destructure arguments", fun s => by
          simp [getTasksTool, destructure, hd, bind, Except.bind]⟩
      | false =>
        cases hid : (match args.getField "project_id" with
            | .undefined => (.ok 0 : Except String Int)
            | v => validateId v "Project ID") with
        | error e =>
          exact ⟨e, fun s => by
            simp [getTasksTool, destructure, hd, hid, bind, Except.bind]⟩
        | ok n =>
          exact ⟨"Invalid status: " ++ jsDisplay (args.getField "status")
                ++ ". Must be one of: pending, in-progress, developed, tested, deployed, blocked", fun s => by
            simp [getTasksTool, destructure, hd, hid, hvs, bind, Except.bind]⟩

/-- Witness for the amended C2 at a concrete input: `priority: "urgent"`
and `status: "done"` are truthy and outside the enums, and each affected
dispatcher rejects on every store with a store-independent error. -/
theorem enumValidationRejectsTruthyWitness :
    ((∃ e, ∀ s, addTaskTool
        (.obj [("project_id", .num 1), ("description", .str "x"),
          ("priority", .str "urgent")]) 3 s = .error e) ∧
      (∃ e, ∀ s, updateTaskTool
        (.obj [("project_id", .num 1), ("description", .str "x"),
          ("priority", .str "urgent")]) 3 s = .error e) ∧
      (∃ e, ∀ s, getTasksTool
        (.obj [("project_id", .num 1), ("description", .str "x"),
          ("priority", .str "urgent")]) s = .error e)) ∧
    ((∃ e, ∀ s, updateTaskTool (.obj [("id", .num 1), ("status", .str "done")]) 3 s
        = .error e) ∧
      (∃ e, ∀ s, getTasksTool (.obj [("id", .num 1), ("status", .str "done")]) s
        = .error e)) :=
  ⟨(enumValidationRejectsTruthy
      (.obj [("project_id", .num 1), ("description", .str "x"),
        ("priority", .str "urgent")]) 3).1 (by decide) (by decide),
   (enumValidationRejectsTruthy
      (.obj [("id", .num 1), ("status", .str "done")]) 3).2 (by decide) (by decide)⟩

/-! ## C6 — operations on ids absent from the store -/

/-- **C6, counterexample.**  The claim "every operation referencing an
absent id fails with a not-found error" is false as stated for
`update_task`: with an absent task id and no writable field supplied, the
store throws `'No valid fields to update'` (a validation-type error)
before the row is ever looked up, so the failure is not the not-found
error. -/
theorem notFoundCounterexample :
    emptyStore.tasks = [] ∧
    updateTaskTool (.obj [("id", .num 1)]) 0 emptyStore
      = .error "No valid fields to update" ∧
    "No valid fields to update" ≠ "Task with ID 1 not found" :=
  ⟨rfl, rfl, by decide⟩

/-- **C6, amended.**  Every operation that references a project or task id
not present in the store — `add_task` with a nonexistent `project_id`,
`update_task` (with at least one writable field) or `delete_task` with a
nonexistent task id, `delete_project` or `get_project_summary` with a
nonexistent project id — fails with the not-found error naming that id
and never succeeds; `update_task` with an absent id *and no writable
field* fails too, but with `'No valid fields to update'` instead.  Each
conclusion is an `.error`, which carries no successor store (the failed
call leaves the store unchanged), and each holds for every store
satisfying the absence hypothesis, so repeating the call fails
identically. -/
theorem notFoundOperationsFail (t : Nat) (s : Store) :
    (∀ (n : Int) (d : String), 0 < n → dbGetProject n s = none →
      jsTrim d ≠ "" →
      addTaskTool (.obj [("project_id", .num n), ("description", .str d)]) t s
        = .error ("Project with ID " ++ toString n ++ " not found")) ∧
    (∀ (n : Int) (st : String), 0 < n → st ∈ taskStatuses →
      s.tasks.find? (fun q => q.id = n) = none →
      updateTaskTool (.obj [("id", .num n), ("status", .str st)]) t s
        = .error ("Task with ID " ++ toString n ++ " not found")) ∧
    (∀ (n : Int), 0 < n → s.tasks.find? (fun q => q.id = n) = none →
      deleteTaskTool (.obj [("id", .num n)]) t s
        = .error ("Task with ID " ++ toString n ++ " not found")) ∧
    (∀ (n : Int), 0 < n → dbGetProject n s = none →
      deleteProjectTool (.obj [("id", .num n)]) t s
        = .error ("Project with ID " ++ toString n ++ " not found")) ∧
    (∀ (n : Int), 0 < n → dbGetProject n s = none →
      getProjectSummaryTool (.obj [("project_id", .num n)]) s
        = .error ("Project with ID " ++ toString n ++ " not found")) ∧
    (∀ (n : Int), 0 < n →
      updateTaskTool (.obj [("id", .num n)]) t s
        = .error "No valid fields to update") := by
  refine ⟨?_, ?_, ?_, ?_, ?_, ?_⟩
  · intro n d hn hget hd
    have hvp : validatePriority (.str "medium") = .ok () := rfl
    have hvc : validateStringOpt .undefined "Category" = .ok () := rfl
    have hva : validateStringOpt .undefined "Assignee" = .ok () := rfl
    have hvd : validateStringOpt .undefined "Due date" = .ok () := rfl
    simp [addTaskTool, destructure, notDestructurable, validateId, hn,
      validateStringReq, hd, hget, JsValue.getField, jsDisplay,
      hvp, hvc, hva, hvd, bind, Except.bind]
  · intro n st hn hst hfind
    have hc : taskStatuses.contains st = true := by simpa using hst
    have hie : isEnumStr (.str st) taskStatuses = true := hc
    have hcond : (truthy (.str st) && !isEnumStr (.str st) taskStatuses) = false := by
      rw [hie]
      simp
    have hvs : validateStatus (.str st) = .ok () := by
      simp [validateStatus, hcond]
    have hvp : validatePriority .undefined = .ok () := rfl
    have hvn : validateStringOpt .undefined "Notes" = .ok () := rfl
    have hvc : validateStringOpt .undefined "Category" = .ok () := rfl
    have hvde : validateStringOpt .undefined "Description" = .ok () := rfl
    have hva : validateStringOpt .undefined "Assignee" = .ok () := rfl
    have hvd : validateStringOpt .undefined "Due date" = .ok () := rfl
    simp [updateTaskTool, destructure, notDestructurable, validateId, hn,
      hvs, hvp, hvn, hvc, hvde, hva, hvd, JsValue.getField, dbUpdateTask,
      allowedTaskFields, hfind, bind, Except.bind]
  · intro n hn hfind
    simp [deleteTaskTool, destructure, notDestructurable, validateId, hn,
      JsValue.getField, dbDeleteTask, hfind, bind, Except.bind]
  · intro n hn hget
    simp [deleteProjectTool, destructure, notDestructurable, validateId, hn,
      hget, JsValue.getField, jsDisplay, bind, Except.bind]
  · intro n hn hget
    simp [getProjectSummaryTool, destructure, notDestructurable, validateId, hn,
      hget, JsValue.getField, jsDisplay, bind, Except.bind]
  · intro n hn
    have hvs : validateStatus .undefined = .ok () := rfl
    have hvp : validatePriority .undefined = .ok () := rfl
    have hvn : validateStringOpt .undefined "Notes" = .ok () := rfl
    have hvc : validateStringOpt .undefined "Category" = .ok () := rfl
    have hvde : validateStringOpt .undefined "Description" = .ok () := rfl
    have hva : validateStringOpt .undefined "Assignee" = .ok () := rfl
    have hvd : validateStringOpt .undefined "Due date" = .ok () := rfl
    simp [updateTaskTool, destructure, notDestructurable, validateId, hn,
      hvs, hvp, hvn, hvc, hvde, hva, hvd, JsValue.getField, dbUpdateTask,
      bind, Except.bind]

/-- Witness for the amended C6 on the empty store with id 7: all six
conclusions at a concrete input. -/
theorem notFoundOperationsFailWitness :
    addTaskTool (.obj [("project_id", .num 7), ("description", .str "x")]) 0
        emptyStore = .error ("Project with ID " ++ toString (7 : Int) ++ " not found") ∧
    updateTaskTool (.obj [("id", .num 7), ("status", .str "pending")]) 0
        emptyStore = .error ("Task with ID " ++ toString (7 : Int) ++ " not found") ∧
    deleteTaskTool (.obj [("id", .num 7)]) 0 emptyStore
      = .error ("Task with ID " ++ toString (7 : Int) ++ " not found") ∧
    deleteProjectTool (.obj [("id", .num 7)]) 0 emptyStore
      = .error ("Project with ID " ++ toString (7 : Int) ++ " not found") ∧
    getProjectSummaryTool (.obj [("project_id", .num 7)]) emptyStore
      = .error ("Project with ID " ++ toString (7 : Int) ++ " not found") ∧
    updateTaskTool (.obj [("id", .num 7)]) 0 emptyStore
      = .error "No valid fields to update" := by
  have h := notFoundOperationsFail 0 emptyStore
  exact ⟨h.1 7 "x" (by decide) rfl (by decide),
    h.2.1 7 "pending" (by decide) (by decide) rfl,
    h.2.2.1 7 (by decide) rfl,
    h.2.2.2.1 7 (by decide) rfl,
    h.2.2.2.2.1 7 (by decide) rfl,
    h.2.2.2.2.2 7 (by decide)⟩

/-! ## C1 — malformed JSON lines -/

/-- A concrete instantiation of `JSON.parse` for the counterexample,
agreeing with the real parser on the two lines it is used on: the
well-formed `initialize` request decodes to its object, and `"notjson"`
throws a syntax error. -/
def demoParse : String → Except String JsValue := fun l =>
  if l = "\x7b\"jsonrpc\":\"2.0\",\"id\":7,\"method\":\"initialize\"\x7d" then
    .ok (.obj [("jsonrpc", .str "2.0"), ("id", .num 7), ("method", .str "initialize")])
  else .error "Unexpected token o in JSON at position 1"

/-- **C1, counterexample.**  The claim "a malformed line produces no
response and subsequent well-formed lines are still processed" is false as
stated: the `catch` in `setupMessageHandling` calls
`sendError(error.message, null)`, so one chunk carrying a malformed line
followed by a well-formed `initialize` line yields exactly one output —
an error envelope with `id: null` for the malformed line — while the
well-formed line is left unprocessed in the buffer (it is answered only
if another chunk arrives). -/
theorem malformedLineCounterexample :
    demoParse "notjson" = .error "Unexpected token o in JSON at position 1" ∧
    serverStep demoParse 0 { buffer := "", store := demoStore }
        "notjson\n\x7b\"jsonrpc\":\"2.0\",\"id\":7,\"method\":\"initialize\"\x7d\n"
      = ({ buffer := "\x7b\"jsonrpc\":\"2.0\",\"id\":7,\"method\":\"initialize\"\x7d\n",
           store := demoStore },
         [mkErrorEnvelope "Unexpected token o in JSON at position 1" .null]) :=
  ⟨rfl, rfl⟩

/-- **C1, amended.**  For every input line that is not valid JSON
(`JSON.parse` throws with message `e`), the server emits exactly one
response for that line — an error envelope with `id: null`, code `-32000`
and message `e` — the store is unchanged and the process continues;
complete lines already buffered after the malformed one are *retained in
the buffer* rather than answered in the same data event, and any later
chunk is processed exactly as if the retained buffer had just arrived
(so subsequent well-formed lines are answered once more input arrives). -/
theorem malformedLinePolicy (parse : String → Except String JsValue)
    (t : Nat) (s : Store) (line e : String) (rest : List String) (last : String)
    (hne : jsTrim line ≠ "") (hp : parse (jsTrim line) = .error e) :
    processParts parse t s (line :: rest) last
      = (s, joinNl (rest ++ [last]), [mkErrorEnvelope e .null]) ∧
    ∀ (st : ServerState) (chunk : String) (t' : Nat),
      serverStep parse t' st chunk
        = serverStep parse t' { buffer := "", store := st.store }
            (st.buffer ++ chunk) := by
  constructor
  · simp [processParts, hne, hp]
  · intro st chunk t'
    show serverStep parse t' st chunk
      = serverStep parse t' { buffer := "", store := st.store } (st.buffer ++ chunk)
    unfold serverStep
    have hbuf : ("" : String) ++ (st.buffer ++ chunk) = st.buffer ++ chunk := by
      simp
    rw [hbuf]

/-- Witness for the amended C1: the malformed line "notjson" followed by a
buffered line `"x"` produces exactly the null-id error envelope and defers
`"x"`. -/
theorem malformedLinePolicyWitness :
    processParts demoParse 0 demoStore ["notjson", "x"] ""
      = (demoStore, joinNl (["x"] ++ [""]),
          [mkErrorEnvelope "Unexpected token o in JSON at position 1" .null]) ∧
    ∀ (st : ServerState) (chunk : String) (t' : Nat),
      serverStep demoParse t' st chunk
        = serverStep demoParse t' { buffer := "", store := st.store }
            (st.buffer ++ chunk) :=
  malformedLinePolicy demoParse 0 demoStore "notjson"
    "Unexpected token o in JSON at position 1" ["x"] ""
    (by decide) rfl

/-! ## C10 — tools/call always answers with exactly one envelope -/

/-- **C10.**  For every `tools/call` request whose `params` is an object —
whatever the tool name (including unknown ones), whatever the `arguments`
value (missing, non-object, or invalid), and whatever the handler does —
`handleToolCall` returns normally (the embedding is a total function:
every handler throw is caught by the surrounding `try`) with exactly one
response envelope carrying the request's id and containing either a
`result` or an `error` with code `-32000` — never both and never neither —
together with a successor store with which the server goes on answering
subsequent requests. -/
theorem toolCallAlwaysAnswers (fs : List (String × JsValue)) (id : JsValue)
    (t : Nat) (s : Store) :
    ∃ (env : Envelope) (s' : Store),
      handleToolCall (.obj fs) id t s = .ok (env, s') ∧
      env.id = id ∧
      (((∃ r, env.result = some r) ∧ env.error = none) ∨
        (env.result = none ∧ ∃ m, env.error = some (-32000, m))) := by
  cases hcall : callTool ((JsValue.obj fs).getField "name")
      ((JsValue.obj fs).getField "arguments") t s with
  | mk res s2 =>
    cases res with
    | ok r =>
      refine ⟨{ id := id, result := some (.toolCall r), error := none }, s2, ?_, rfl, ?_⟩
      · simp [handleToolCall, notDestructurable, hcall]
      · exact Or.inl ⟨⟨.toolCall r, rfl⟩, rfl⟩
    | error e =>
      refine ⟨{ id := id, result := none, error := some (-32000, e) }, s2, ?_, rfl, ?_⟩
      · simp [handleToolCall, notDestructurable, hcall]
      · exact Or.inr ⟨rfl, e, rfl⟩

/-! ## C8 — client-side request/response correlation -/

/-- A non-`call` step assigns no id and leaves `nextId` unchanged. -/
theorem clientStep_ne_call (s : ClientState) (e : ClientEvent)
    (he : ∀ now, e ≠ .call now) :
    assignedIds (clientStep s e).2 = [] ∧ (clientStep s e).1.nextId = s.nextId := by
  cases e with
  | call now => exact absurd rfl (he now)
  | respond rid =>
    cases rid with
    | num n =>
      dsimp only [clientStep]
      split
      · exact ⟨rfl, rfl⟩
      · exact ⟨rfl, rfl⟩
    | undefined => exact ⟨rfl, rfl⟩
    | null => exact ⟨rfl, rfl⟩
    | bool b => exact ⟨rfl, rfl⟩
    | str st => exact ⟨rfl, rfl⟩
    | obj fsv => exact ⟨rfl, rfl⟩
  | timerFire now id =>
    dsimp only [clientStep]
    split
    · split
      · exact ⟨rfl, rfl⟩
      · exact ⟨rfl, rfl⟩
    · exact ⟨rfl, rfl⟩
  | exited code =>
    refine ⟨?_, rfl⟩
    simp only [clientStep, assignedIds, List.filterMap_map]
    have : ∀ l : List (Nat × Nat),
        l.filterMap (fun _ => (none : Option Nat)) = [] := by
      intro l
      induction l with
      | nil => rfl
      | cons x xs ih => exact ih
    exact this s.pending

/-- The ids assigned during a run starting at `nextId = k` are exactly
`k, k+1, …` — one per `call` event, in order. -/
theorem assignedIds_runClient (events : List ClientEvent) : ∀ s : ClientState,
    assignedIds (runClient s events).2
      = List.range' s.nextId (countCalls events) := by
  induction events with
  | nil => intro s; rfl
  | cons e es ih =>
    intro s
    show assignedIds (let (s', outs) := clientStep s e
      let (s'', outs') := runClient s' es
      (s'', outs ++ outs')).2 = _
    cases e with
    | call now =>
      have hcount : countCalls (.call now :: es) = countCalls es + 1 := by
        simp [countCalls]
      rw [hcount]
      simp only [clientStep, runClient, assignedIds, List.filterMap_append]
      have hrange : List.range' s.nextId (countCalls es + 1)
          = s.nextId :: List.range' (s.nextId + 1) (countCalls es) := rfl
      rw [hrange]
      have := ih { nextId := s.nextId + 1,
                   pending := s.pending ++ [(s.nextId, now + requestTimeoutMs)] }
      simpa [assignedIds] using this
    | respond rid =>
      have h := clientStep_ne_call s (.respond rid) (fun _ => by simp)
      have hcount : countCalls (.respond rid :: es) = countCalls es := by
        simp [countCalls]
      rw [hcount]
      obtain ⟨h1, h2⟩ := h
      cases hstep : clientStep s (.respond rid) with
      | mk s' outs =>
        rw [hstep] at h1 h2
        simp only [assignedIds, List.filterMap_append] at h1 ⊢
        rw [h1]
        dsimp only at h2
        rw [List.nil_append, ← h2]
        exact ih s'
    | timerFire now id =>
      have h := clientStep_ne_call s (.timerFire now id) (fun _ => by simp)
      have hcount : countCalls (.timerFire now id :: es) = countCalls es := by
        simp [countCalls]
      rw [hcount]
      obtain ⟨h1, h2⟩ := h
      cases hstep : clientStep s (.timerFire now id) with
      | mk s' outs =>
        rw [hstep] at h1 h2
        simp only [assignedIds, List.filterMap_append] at h1 ⊢
        rw [h1]
        dsimp only at h2
        rw [List.nil_append, ← h2]
        exact ih s'
    | exited code =>
      have h := clientStep_ne_call s (.exited code) (fun _ => by simp)
      have hcount : countCalls (.exited code :: es) = countCalls es := by
        simp [countCalls]
      rw [hcount]
      obtain ⟨h1, h2⟩ := h
      cases hstep : clientStep s (.exited code) with
      | mk s' outs =>
        rw [hstep] at h1 h2
        simp only [assignedIds, List.filterMap_append] at h1 ⊢
        rw [h1]
        dsimp only at h2
        rw [List.nil_append, ← h2]
        exact ih s'

/-- **C8.**  Client-side request correlation (`MCPTestClient`): (1) each
outgoing request is assigned a monotonically increasing integer id
starting at 1 (one per `call`, in order); (2) a `call` at time `now` also
arms the fixed-duration timeout (deadline `now + REQUEST_TIMEOUT_MS`);
(3) a decoded response whose id matches a pending entry removes and
completes exactly that entry; (4) responses with unmatched or non-numeric
ids are dropped silently; (5) once a request's timeout deadline has
passed and its timer fires, the pending entry is removed and the caller
fails with the timeout error, and a late response for that id is then
dropped as unmatched; (6) if the server process exits, every still-pending
request is failed with a process-exited error carrying the exit code. -/
theorem clientCorrelation (events : List ClientEvent) :
    assignedIds (runClient initialClientState events).2
      = List.range' 1 (countCalls events) ∧
    (∀ (s : ClientState) (now : Nat),
      clientStep s (.call now)
        = ({ nextId := s.nextId + 1,
             pending := s.pending ++ [(s.nextId, now + requestTimeoutMs)] },
           [.assigned s.nextId])) ∧
    (∀ (s : ClientState) (k dl : Nat), 0 < k → (k, dl) ∈ s.pending →
      clientStep s (.respond (.num k))
        = ({ s with pending := s.pending.filter (fun e => (e.1 : Int) ≠ (k : Int)) },
           [.completed k])) ∧
    (∀ (s : ClientState) (m : Int), (∀ e ∈ s.pending, (e.1 : Int) ≠ m) →
      clientStep s (.respond (.num m)) = (s, [])) ∧
    (∀ (s : ClientState) (st : String),
      clientStep s (.respond (.str st)) = (s, [])) ∧
    (∀ (s : ClientState) (k dl now : Nat),
      s.pending.find? (fun e => e.1 = k) = some (k, dl) → dl ≤ now →
      clientStep s (.timerFire now k)
        = ({ s with pending := s.pending.filter (fun e => e.1 ≠ k) },
           [.failedTimeout k]) ∧
      clientStep { s with pending := s.pending.filter (fun e => e.1 ≠ k) }
          (.respond (.num k))
        = ({ s with pending := s.pending.filter (fun e => e.1 ≠ k) }, [])) ∧
    (∀ (s : ClientState) (code : Int),
      clientStep s (.exited code)
        = ({ s with pending := [] },
           s.pending.map (fun e => .failedExit e.1 code))) := by
  refine ⟨assignedIds_runClient events initialClientState, fun s now => rfl,
    ?_, ?_, fun s st => rfl, ?_, fun s code => rfl⟩
  · intro s k dl hk hmem
    have hany : (s.pending.any fun e => ((e.1 : Nat) : Int) = (k : Int)) = true := by
      rw [List.any_eq_true]
      exact ⟨(k, dl), hmem, by simp⟩
    have htr : truthy (.num (k : Int)) = true := by
      simp [truthy]
      omega
    dsimp only [clientStep]
    rw [if_pos (by rw [htr, hany]; rfl)]
    rfl
  · intro s m hnone
    have hany : (s.pending.any fun e => ((e.1 : Nat) : Int) = m) = false := by
      rw [List.any_eq_false]
      intro e he
      simpa using hnone e he
    dsimp only [clientStep]
    rw [if_neg (by rw [hany]; simp)]
  · intro s k dl now hfind hdl
    have hdrop : ∀ e ∈ s.pending.filter (fun e => e.1 ≠ k),
        ((e.1 : Nat) : Int) ≠ (k : Int) := by
      intro e he
      have h2 := (List.mem_filter.mp he).2
      simp only [decide_not] at h2
      intro hcast
      have : e.1 = k := by exact_mod_cast hcast
      simp [this] at h2
    constructor
    · dsimp only [clientStep]
      rw [hfind]
      dsimp only
      rw [if_pos hdl]
    · have hany : ((s.pending.filter (fun e => e.1 ≠ k)).any
          fun e => ((e.1 : Nat) : Int) = (k : Int)) = false := by
        rw [List.any_eq_false]
        intro e he
        simpa using hdrop e he
      dsimp only [clientStep]
      rw [if_neg (by rw [hany]; simp)]

/-- Witness for C8 at concrete states: two calls get ids [1, 2]; a
matching response completes entry 1; an unmatched response is dropped; a
fired timeout removes entry 2 and a late response for it is dropped; a
process exit fails the pending entry with the code. -/
theorem clientCorrelationWitness :
    assignedIds (runClient initialClientState [.call 0, .call 5]).2
      = List.range' 1 (countCalls [.call 0, .call 5]) ∧
    clientStep { nextId := 3, pending := [(1, 8000), (2, 8005)] } (.respond (.num 1))
      = ({ nextId := 3, pending := [(2, 8005)] }, [.completed 1]) ∧
    clientStep { nextId := 3, pending := [(2, 8005)] } (.respond (.num 9))
      = ({ nextId := 3, pending := [(2, 8005)] }, []) ∧
    (clientStep { nextId := 3, pending := [(2, 8005)] } (.timerFire 8005 2)
        = ({ nextId := 3, pending := [] }, [.failedTimeout 2]) ∧
      clientStep { nextId := 3, pending := [] } (.respond (.num 2))
        = ({ nextId := 3, pending := [] }, [])) ∧
    clientStep { nextId := 4, pending := [(3, 9000)] } (.exited 1)
      = ({ nextId := 4, pending := [] }, [.failedExit 3 1]) := by
  have h := clientCorrelation [.call 0, .call 5]
  refine ⟨h.1, ?_, ?_, ?_, ?_⟩
  · exact h.2.2.1 { nextId := 3, pending := [(1, 8000), (2, 8005)] } 1 8000
      (by decide) (by decide)
  · exact h.2.2.2.1 { nextId := 3, pending := [(2, 8005)] } 9 (by decide)
  · exact h.2.2.2.2.2.1 { nextId := 3, pending := [(2, 8005)] } 2 8005 8005
      (by decide) (by decide)
  · exact h.2.2.2.2.2.2 { nextId := 4, pending := [(3, 9000)] } 1
